import Mathlib

/-!
Verification development for the pointer-file ("strm") reconciliation-and-cleanup
engine of the StrmDeLocal plugin (`plugins.v2/strmdelocal/__init__.py`).

The Python source is shallowly embedded here:
* the filesystem is a finite list of (path, kind) entries; paths are lists of
  segments of a normalized absolute path (`Path` round-trips are modelled by
  `pathStr` / `toSegs`);
* the external transfer/download indices are an `Env` of query functions
  returning `Except Unit _` (an error models a raised exception, which the
  source catches where it has a `try`);
* destructive operations (file unlink, directory tree removal, transfer-record
  deletion, download-hash deletion events) are recorded in an event trace;
  logging calls are I/O only and are not part of the state;
* `time.time()` is modelled by a monotone `Nat` clock supplied with each
  dequeued task; Python string operations are re-implemented over `List Char`
  (ASCII-faithful, which covers every pattern the source matches on).
-/

namespace StrmDeLocal

/-! ## Character-list string utilities (Python `str` operations) -/

/-- Python truncating `in` test helper: is `pat` a prefix of `s`? -/
def prefOf : List Char → List Char → Bool
  | [], _ => true
  | _ :: _, [] => false
  | a :: as, b :: bs => a = b && prefOf as bs

/-- Python substring containment `pat in s` (contiguous, case-sensitive). -/
def subIn (pat : List Char) : List Char → Bool
  | [] => pat.isEmpty
  | s@(_ :: rest) => prefOf pat s || subIn pat rest

/-- `pat in s` on `String`s, as Python `in`. -/
def containsSub (s pat : String) : Bool := subIn pat.data s.data

/-- `s.startswith pre` on `String`s. -/
def startsWith (s pre : String) : Bool := prefOf pre.data s.data

/-- Python `str.replace(pat, rep)`: non-overlapping left-to-right replacement
(for a nonempty pattern; the source only replaces the two-character pattern
`\\`). -/
def replListF (pat rep : List Char) : Nat → List Char → List Char
  | _, [] => []
  | 0, s => s
  | fuel + 1, c :: rest =>
    if pat ≠ [] ∧ prefOf pat (c :: rest) then
      rep ++ replListF pat rep fuel ((c :: rest).drop pat.length)
    else
      c :: replListF pat rep fuel rest

/-- Entry point of the replacement scan; the fuel (the input length) is enough
for the whole scan, since each step of `replListF` consumes at least one input
character. -/
def replList (pat rep s : List Char) : List Char :=
  replListF pat rep s.length s

/-- Python `s.replace(pat, rep)` on `String`s. -/
def pyReplace (s pat rep : String) : String := ⟨replList pat.data rep.data s.data⟩

/-- Python `str.strip()` (whitespace at both ends). -/
def pyStrip (s : String) : String :=
  ⟨((s.data.dropWhile Char.isWhitespace).reverse.dropWhile Char.isWhitespace).reverse⟩

/-- Python `str.strip("/")`. -/
def stripSlash (s : String) : String :=
  ⟨((s.data.dropWhile (· = '/')).reverse.dropWhile (· = '/')).reverse⟩

/-- Python `str.split(sep)` on a single-character separator (keeps empty
pieces, like Python). -/
def splitCh (sep : Char) : List Char → List (List Char)
  | [] => [[]]
  | c :: rest =>
    let r := splitCh sep rest
    if c = sep then [] :: r
    else
      match r with
      | h :: t => (c :: h) :: t
      | [] => [[c]]

/-- Python `str.split(sep, 1)`: split at the first occurrence, `none` when the
separator does not occur. -/
def splitFirst (sep : Char) : List Char → Option (List Char × List Char)
  | [] => none
  | c :: rest =>
    if c = sep then some ([], rest)
    else (splitFirst sep rest).map (fun ab => (c :: ab.1, ab.2))

/-- ASCII lower-casing, as used by Python `.lower()` on the ASCII data the
source matches against. -/
def strLower (s : String) : String := ⟨s.data.map Char.toLower⟩

/-- Digit run to the number it denotes (Python `int` on a digit string). -/
def digitsToNat (ds : List Char) : Nat :=
  ds.foldl (fun n c => n * 10 + (c.toNat - '0'.toNat)) 0

/-- Python `str.zfill(2)`. -/
def zfill2 (ds : List Char) : List Char :=
  if ds.length < 2 then List.replicate (2 - ds.length) '0' ++ ds else ds

/-! ## Paths

A filesystem path is the list of segments of its normalized absolute form;
`pathStr` is Python's `str(Path(...))` and `toSegs` is `Path(string)`. -/

/-- A filesystem path as its list of segments. -/
abbrev FPath := List String

/-- `str(path)` of an absolute path. -/
def pathStr (p : FPath) : String :=
  ⟨'/' :: List.intercalate ['/'] (p.map String.data)⟩

/-- `Path(string)`: segments of a path string (empty segments dropped, as
`pathlib` normalization does). -/
def toSegs (s : String) : FPath :=
  ((splitCh '/' s.data).map String.mk).filter (fun x => x ≠ "")

/-- `Path.name`: final segment. -/
def pName (p : FPath) : String := p.getLast?.getD ""

/-- Index of the last occurrence of `c`. -/
def lastIdxOf (c : Char) : List Char → Option Nat
  | [] => none
  | x :: xs =>
    match lastIdxOf c xs with
    | some i => some (i + 1)
    | none => if x = c then some 0 else none

/-- `PurePath.suffix` of a file name: from the last dot, provided that dot is
neither the first nor past-the-last character. -/
def suffixOf (name : String) : String :=
  match lastIdxOf '.' name.data with
  | some i => if 0 < i ∧ i < name.data.length - 1 then ⟨name.data.drop i⟩ else ""
  | none => ""

/-- `PurePath.stem` of a file name. -/
def stemOf (name : String) : String :=
  match lastIdxOf '.' name.data with
  | some i => if 0 < i ∧ i < name.data.length - 1 then ⟨name.data.take i⟩ else name
  | none => name

/-- `Path.stem` of a path. -/
def pStem (p : FPath) : String := stemOf (pName p)

/-- `Path.suffix` of a path. -/
def pSuffix (p : FPath) : String := suffixOf (pName p)

/-- `Path(f).name` of a path string (used for notification basenames). -/
def baseName (f : String) : String := pName (toSegs f)

/-! ## Recognized extensions (module constants of the source) -/

/-- `MEDIA_EXTENSIONS` from the source. -/
def MEDIA_EXTENSIONS : List String :=
  [".mp4", ".mkv", ".ts", ".iso", ".rmvb", ".avi", ".mov",
   ".mpeg", ".mpg", ".wmv", ".3gp", ".asf", ".m4v", ".flv",
   ".m2ts", ".tp", ".f4v"]

/-- `META_EXTENSIONS` from the source (a Python set; embedded in the literal's
order — no claim depends on iteration order). -/
def META_EXTENSIONS : List String :=
  [".nfo", ".jpg", ".png", ".xml", ".bif", ".json"]

/-! ## Filesystem model -/

/-- Kind of a filesystem entry. -/
inductive EKind
  | file
  | dir
deriving DecidableEq, Repr

/-- A filesystem: finite list of existing entries; list order is the directory
enumeration order (`iterdir`, `glob`, `os.walk`). -/
structure FS where
  entries : List (FPath × EKind)
deriving DecidableEq, Repr

/-- `Path.exists()`. -/
def FS.existsP (fs : FS) (p : FPath) : Bool := fs.entries.any (fun e => e.1 = p)

/-- `Path.is_dir()`. -/
def FS.isDirP (fs : FS) (p : FPath) : Bool :=
  fs.entries.any (fun e => e.1 = p ∧ e.2 = EKind.dir)

/-- `Path.is_file()`. -/
def FS.isFileP (fs : FS) (p : FPath) : Bool :=
  fs.entries.any (fun e => e.1 = p ∧ e.2 = EKind.file)

/-- `Path.iterdir()`: immediate children, in directory order. -/
def FS.children (fs : FS) (p : FPath) : List (FPath × EKind) :=
  fs.entries.filter (fun e => e.1.length = p.length + 1 ∧ List.isPrefixOf p e.1)

/-- `Path.unlink()`: remove a single entry. -/
def FS.unlink (fs : FS) (p : FPath) : FS :=
  ⟨fs.entries.filter (fun e => ¬ e.1 = p)⟩

/-- `shutil.rmtree`: remove the entry and everything below it. -/
def FS.rmtree (fs : FS) (p : FPath) : FS :=
  ⟨fs.entries.filter (fun e => ¬ List.isPrefixOf p e.1)⟩

/-- Files strictly under a directory, as enumerated by `os.walk`. -/
def filesUnder (fs : FS) (d : FPath) : List FPath :=
  (fs.entries.filter
    (fun e => e.2 = EKind.file ∧ List.isPrefixOf d e.1 ∧ d.length < e.1.length)).map
    (fun e => e.1)

/-! ## Configuration, external indices, state -/

/-- The plugin configuration fields used by the reconciliation engine. -/
structure Config where
  notify_only : Bool
  clean_metadata : Bool
  delete_torrent : Bool
  remove_record : Bool
  deep_search : Bool
  send_notify : Bool
  keep_dirs : List String
  exclude_keywords : List String
  path_mappings : List String
deriving DecidableEq, Repr

/-- A transfer-history record (external index row); `none` models a
missing/empty (falsy) field. -/
structure TRecord where
  id : Nat
  dest : String
  src : Option String
  download_hash : Option String
deriving DecidableEq, Repr

/-- External index clients (`TransferHistoryOper` / `DownloadHistoryOper`);
`Except.error` models a raised exception. -/
structure Env where
  get_by : Nat → Option String → Option String → Except Unit (List TRecord)
  get_by_dest : String → Except Unit (Option TRecord)
  get_hash_by_fullpath : String → Except Unit (Option String)

/-- Destructive operations recorded as an observable trace. -/
inductive Ev
  | unlink (p : FPath)
  | rmtree (p : FPath)
  | delRecord (id : Nat)
  | delHash (h : String)
deriving DecidableEq, Repr

/-- The per-idle-window statistics dictionary. -/
structure Stats where
  scanned : Nat
  matched : Nat
  deleted : Nat
  failed : Nat
  deleted_files : List String
deriving DecidableEq, Repr

/-- Fresh statistics, as (re)initialized by the worker loop. -/
def Stats.init : Stats := ⟨0, 0, 0, 0, []⟩

/-- A persisted history entry (`_save_history`), reduced to the fields the
worker writes from its own computation. -/
structure HEntry where
  title : String
  action : String
  target : String
  files : List String
deriving DecidableEq, Repr

/-- The mutable world outside the per-task bookkeeping: the filesystem, the
destructive-operation trace, and the persisted history log. -/
structure World where
  fs : FS
  events : List Ev
  history : List HEntry
deriving DecidableEq, Repr

/-- Record one destructive operation. -/
def emit (w : World) (e : Ev) : World := { w with events := w.events ++ [e] }

/-- State threaded through one task's cleanup: the world, the statistics and
the task's `processed_files` set (of path strings). -/
structure TaskSt where
  world : World
  stats : Stats
  processed : List String
deriving DecidableEq, Repr

/-- Python `set.add` on the processed-paths set. -/
def addSet (l : List String) (x : String) : List String :=
  if x ∈ l then l else l ++ [x]

/-! ## ExclusionFilter (`_check_exclusion`, `_is_excluded`) -/

/-- Token-list parsing for `keep_dirs` / `exclude_keywords`:
`[x.strip() for x in s.replace('\n','|').split('|') if x.strip()]`. -/
def parseTokens (s : String) : List String :=
  (((splitCh '|' (pyReplace s "\n" "|").data).map String.mk).map pyStrip).filter
    (fun x => x ≠ "")

/-- `_check_exclusion`: `keep_dirs` first, then `exclude_keywords`; a token
matches when it is nonempty (truthy) and a substring of the path string. -/
def checkExclusion (keep excl : List String) (s : String) : Option String :=
  match keep.find? (fun d => !(d = "") && containsSub s d) with
  | some d => some d
  | none => excl.find? (fun k => !(k = "") && containsSub s k)

/-- `_is_excluded` on a path. -/
def isExcluded (cfg : Config) (p : FPath) : Bool :=
  (checkExclusion cfg.keep_dirs cfg.exclude_keywords (pathStr p)).isSome

/-! ## PathMappingResolver (`_handle_single_file`, mapping scan) -/

/-- The two-character backslash pattern the source strips from path strings. -/
def bs2 : String := "\\\\"

/-- Try one `"sourceRoot:localRoot"` mapping line against a normalized pointer
path string: skipped without a colon; otherwise the source root (stripped,
backslash-normalized) must be a literal string prefix. -/
def resolveOne (m : String) (p : String) : Option (String × FPath) :=
  match splitFirst ':' m.data with
  | none => none
  | some (s, l) =>
    let s_r := pyReplace (pyStrip ⟨s⟩) bs2 "/"
    if startsWith p s_r then some (s_r, toSegs (pyStrip ⟨l⟩)) else none

/-- The mapping scan of `_handle_single_file` (first configured match wins). -/
def findMapping : List String → String → Option (String × FPath)
  | [], _ => none
  | m :: rest, p =>
    match resolveOne m p with
    | some r => some r
    | none => findMapping rest p

/-! ## IdentityExtractor (TMDB id and season/episode patterns)

The three `re.search` patterns for the TMDB id and the `SxxEyy` scans are
implemented as left-to-right scanners over the character list, matching the
regex semantics (first match position; greedy digit runs). -/

/-- Opening brace character (code point 123). -/
def braceOpen : Char := Char.ofNat 123

/-- Closing brace character. -/
def braceClose : Char := Char.ofNat 125

/-- Case-insensitive literal match at the head. -/
def ciPref (pat : List Char) (s : List Char) : Bool :=
  prefOf pat (s.map Char.toLower)

/-- After `tmdb`/`tmdbid` inside braces: `[=-]?(\d+)\}` at the head. -/
def tailDigitsClose (r : List Char) : Option (List Char) :=
  let r1 := match r with
    | c :: t => if c = '=' ∨ c = '-' then t else r
    | [] => r
  let ds := r1.takeWhile Char.isDigit
  if ds ≠ [] ∧ (r1.drop ds.length).head? = some braceClose then some ds else none

/-- Head attempt of `\{(?:tmdb|tmdbid)[=-]?(\d+)\}` (case-insensitive). -/
def p1TryAt : List Char → Option (List Char)
  | [] => none
  | c :: r =>
    if c = braceOpen ∧ ciPref "tmdb".data r then
      let r4 := r.drop 4
      match tailDigitsClose r4 with
      | some ds => some ds
      | none => if ciPref "id".data r4 then tailDigitsClose (r4.drop 2) else none
    else none

/-- Head attempt of `tmdb[=-](\d+)` (case-insensitive). -/
def p2TryAt (s : List Char) : Option (List Char) :=
  if ciPref "tmdb".data s then
    match s.drop 4 with
    | c :: r =>
      if c = '=' ∨ c = '-' then
        let ds := r.takeWhile Char.isDigit
        if ds ≠ [] then some ds else none
      else none
    | [] => none
  else none

/-- Head attempt of `\[tmdbid[=-](\d+)\]` (case-insensitive). -/
def p3TryAt : List Char → Option (List Char)
  | [] => none
  | c :: r =>
    if c = '[' ∧ ciPref "tmdbid".data r then
      match r.drop 6 with
      | c2 :: r2 =>
        if c2 = '=' ∨ c2 = '-' then
          let ds := r2.takeWhile Char.isDigit
          if ds ≠ [] ∧ (r2.drop ds.length).head? = some ']' then some ds else none
        else none
      | [] => none
    else none

/-- `re.search`: scan positions left to right, first successful head match. -/
def scanFirst {α : Type} (f : List Char → Option α) : List Char → Option α
  | [] => f []
  | s@(_ :: rest) =>
    match f s with
    | some r => some r
    | none => scanFirst f rest

/-- TMDB-id extraction: the three patterns in source order, first match wins. -/
def extractTmdb (s : String) : Option Nat :=
  match scanFirst p1TryAt s.data with
  | some ds => some (digitsToNat ds)
  | none =>
    match scanFirst p2TryAt s.data with
    | some ds => some (digitsToNat ds)
    | none =>
      match scanFirst p3TryAt s.data with
      | some ds => some (digitsToNat ds)
      | none => none

/-- Head attempt of `[sS](\d+)[eE](\d+)`: the two digit groups. -/
def seTryAt : List Char → Option (List Char × List Char)
  | [] => none
  | c :: rest =>
    if c = 's' ∨ c = 'S' then
      let d1 := rest.takeWhile Char.isDigit
      if d1 ≠ [] then
        match rest.drop d1.length with
        | e :: r2 =>
          if e = 'e' ∨ e = 'E' then
            let d2 := r2.takeWhile Char.isDigit
            if d2 ≠ [] then some (d1, d2) else none
          else none
        | [] => none
      else none
    else none

/-- `re.search(r'[sS](\d+)[eE](\d+)', stem)`: first match. -/
def seFind (s : List Char) : Option (List Char × List Char) := scanFirst seTryAt s

/-- Deepest (right-most) head match among proper suffixes, used for the greedy
`(.+)[sS](\d+)[eE](\d+)` of the deep-search finale: `(.+)` is greedy, so the
match starts at the largest possible position (and at position ≥ 1). -/
def seLastAux : List Char → Option (List Char × List Char)
  | [] => none
  | s@(_ :: rest) =>
    match seLastAux rest with
    | some r => some r
    | none => seTryAt s

/-- `re.search(r'(.+)[sS](\d+)[eE](\d+)', stem)`: the `SxE` groups of the
greedy match, `none` when the pattern does not match. -/
def seLast (s : List Char) : Option (List Char × List Char) :=
  match s with
  | [] => none
  | _ :: rest => seLastAux rest

/-- Head attempt of `(\d{4})` followed by a closing bracket, after an opening
bracket: used by the name-(year) rule. -/
def yearTryAt (r : List Char) : Option (List Char) :=
  match r with
  | d1 :: d2 :: d3 :: d4 :: c :: _ =>
    if d1.isDigit ∧ d2.isDigit ∧ d3.isDigit ∧ d4.isDigit ∧
       (c = ')' ∨ c = ']' ∨ c = '）') then some [d1, d2, d3, d4]
    else none
  | _ => none

/-- `re.search(r'(.+?)[\(\[（](\d{4})[\)\]）]', part)`: lazy `(.+?)` means the
match uses the smallest boundary `j ≥ 1` with an opening bracket followed by
four digits and a closing bracket; returns (group 1, group 2). -/
def nameYearAux (pre : List Char) : List Char → Option (List Char × List Char)
  | [] => none
  | c :: rs =>
    if pre ≠ [] ∧ (c = '(' ∨ c = '[' ∨ c = '（') then
      match yearTryAt rs with
      | some y => some (pre.reverse, y)
      | none => nameYearAux (c :: pre) rs
    else nameYearAux (c :: pre) rs

/-- Name-(year) pattern of the deep-search redirection. -/
def nameYearFind (s : List Char) : Option (List Char × List Char) :=
  nameYearAux [] s

/-- Head attempt of `season\s*(\d+)` (case-insensitive `season`): skip the
whitespace run, then a nonempty greedy digit run. -/
def seasonTryAt (s : List Char) : Option Nat :=
  if ciPref "season".data s then
    let r := (s.drop 6).dropWhile Char.isWhitespace
    let ds := r.takeWhile Char.isDigit
    if ds ≠ [] then some (digitsToNat ds) else none
  else none

/-- `re.search(r'[sS]eason\s*(\d+)', name, re.I)`: first match's number. -/
def seasonNum (s : List Char) : Option Nat := scanFirst seasonTryAt s

/-- First digit run in a string (`re.search(r'\d+', part)`). -/
def firstDigits (s : List Char) : Option (List Char) :=
  scanFirst (fun r =>
    let ds := r.takeWhile Char.isDigit
    if ds ≠ [] then some ds else none) s

/-! ## CleanupExecutor (`_del_meta_for_file`, `_get_torrent_hash`,
`_perform_cleanup`, `_recursive_check_and_cleanup`, `_do_cleanup_dir`) -/

/-- First pass of `_del_meta_for_file`: for each metadata extension, unlink
`parent/(stem+ext)` when it exists (a directory of that name would make
`unlink` raise, which the source catches, so only files are removed). -/
def delMetaPass1 (w : World) (parent : FPath) (stem : String) : World :=
  META_EXTENSIONS.foldl (fun w ext =>
    let f := parent ++ [stem ++ ext]
    if w.fs.isFileP f then emit { w with fs := w.fs.unlink f } (Ev.unlink f) else w) w

/-- The fuzzy sibling test of `_del_meta_for_file`: stem followed by a
separator. -/
def metaSibMatch (stem name : String) : Bool :=
  startsWith name (stem ++ " ") || startsWith name (stem ++ ".") ||
  startsWith name (stem ++ "-") || startsWith name (stem ++ "_")

/-- Second pass of `_del_meta_for_file`: `parent.glob(stem*)` (children whose
name starts with the stem, in directory order; glob metacharacters inside the
stem are not modelled — no claim depends on them), skipping the media file
itself, non-metadata suffixes and exact-stem names, unlinking fuzzy siblings. -/
def delMetaPass2 (w : World) (parent : FPath) (stem : String) (media_path : FPath) : World :=
  let cand := (w.fs.children parent).filter (fun e => startsWith (pName e.1) stem)
  cand.foldl (fun w e =>
    let f := e.1
    if f = media_path then w
    else if ¬ (strLower (suffixOf (pName f)) ∈ META_EXTENSIONS) then w
    else
      let name := stemOf (pName f)
      if name = stem then w
      else if metaSibMatch stem name then
        if w.fs.isFileP f then emit { w with fs := w.fs.unlink f } (Ev.unlink f) else w
      else w) w

/-- `_del_meta_for_file`. -/
def delMetaForFile (cfg : Config) (w : World) (media_path : FPath) : World :=
  if ¬ cfg.clean_metadata then w
  else
    let parent := media_path.dropLast
    if ¬ w.fs.existsP parent then w
    else
      let stem := pStem media_path
      delMetaPass2 (delMetaPass1 w parent stem) parent stem media_path

/-- `get_by_dest` wrapped in `try/except: pass` (as in `_perform_cleanup` and
`_del_torrents`). -/
def lookupDest (env : Env) (p : String) : Option TRecord :=
  match env.get_by_dest p with
  | Except.ok v => v
  | Except.error _ => none

/-- `_get_torrent_hash`: stored hash, then reverse lookup of the record's
source path, then reverse lookup of the destination; any raise gives `none`. -/
def getTorrentHash (env : Env) (fp : FPath) (h : Option TRecord) : Option String :=
  let m : Except Unit (Option String) :=
    match h with
    | some r =>
      match r.download_hash with
      | some dh => Except.ok (some dh)
      | none =>
        match r.src with
        | some src =>
          match env.get_hash_by_fullpath src with
          | Except.ok (some hh) => Except.ok (some hh)
          | Except.ok none => env.get_hash_by_fullpath (pathStr fp)
          | Except.error e => Except.error e
        | none => env.get_hash_by_fullpath (pathStr fp)
    | none => env.get_hash_by_fullpath (pathStr fp)
  match m with
  | Except.ok v => v
  | Except.error _ => none

/-- Metadata step of `_perform_cleanup` (runs only when its toggle is on). -/
def metaStep (cfg : Config) (w : World) (p : FPath) : World :=
  if cfg.clean_metadata then delMetaForFile cfg w p else w

/-- Torrent-linkage step of `_perform_cleanup`: resolve a hash and emit the
download-file-deleted event. -/
def torrentStep (cfg : Config) (env : Env) (h : Option TRecord) (w : World) (p : FPath) :
    World :=
  if cfg.delete_torrent then
    match getTorrentHash env p h with
    | some t => emit w (Ev.delHash t)
    | none => w
  else w

/-- Transfer-record step of `_perform_cleanup`: delete the record by id when
enabled and found. -/
def recordStep (cfg : Config) (h : Option TRecord) (w : World) : World :=
  match cfg.remove_record, h with
  | true, some r => emit w (Ev.delRecord r.id)
  | _, _ => w

/-- `_perform_cleanup`: per-file cleanup. Already-processed paths return
immediately; dry-run only logs; otherwise the metadata/torrent/record steps
run, then the physical file is unlinked if it exists (the model's unlink
always succeeds, so the `failed` branch of the source is unreachable here);
a missing file skips only the physical deletion. -/
def performCleanup (cfg : Config) (env : Env) (st : TaskSt) (fp : FPath) : TaskSt :=
  if pathStr fp ∈ st.processed then st
  else
    let file_exists := st.world.fs.existsP fp
    let st1 :=
      if cfg.notify_only = false then
        let h := lookupDest env (pathStr fp)
        let w3 := recordStep cfg h (torrentStep cfg env h (metaStep cfg st.world fp) fp)
        if file_exists then
          { st with
            world := emit { w3 with fs := w3.fs.unlink fp } (Ev.unlink fp)
            stats := { st.stats with
                         deleted := st.stats.deleted + 1
                         deleted_files := st.stats.deleted_files ++ [pathStr fp] } }
        else { st with world := w3 }
      else st
    { st1 with processed := addSet st1.processed (pathStr fp) }

/-- Valid-content test of `_recursive_check_and_cleanup`: a subdirectory or a
file with a recognized media extension blocks removal. -/
def hasMediaOrSubdir (fs : FS) (p : FPath) : Bool :=
  (fs.children p).any (fun e =>
    e.2 = EKind.dir ∨ (e.2 = EKind.file ∧ strLower (pSuffix e.1) ∈ MEDIA_EXTENSIONS))

/-- `_recursive_check_and_cleanup`: empty-ancestor reclamation. Dry-run stops
after reporting the first qualifying directory; active mode removes the tree
and walks upward while the parent exists. (`Path('/').parent` is `'/'` itself,
which `rmtree('/')` has just removed, so the root case stops — encoded by the
`p = []` guard.) -/
def recCleanupF (cfg : Config) : Nat → TaskSt → FPath → TaskSt
  | 0, st, _ => st
  | fuel + 1, st, p =>
    if ¬ (st.world.fs.existsP p ∧ st.world.fs.isDirP p) then st
    else if hasMediaOrSubdir st.world.fs p then st
    else if cfg.notify_only then st
    else
      let st' : TaskSt :=
        { st with
          world := emit { st.world with fs := st.world.fs.rmtree p } (Ev.rmtree p)
          stats := { st.stats with deleted := st.stats.deleted + 1 } }
      if p = [] then st'
      else if st'.world.fs.existsP p.dropLast then recCleanupF cfg fuel st' p.dropLast
      else st'

/-- Entry point of the upward reclamation walk; the fuel (the path depth plus
one) is enough for the whole walk, since each recursive step shortens the path
by one segment and the walk stops at the root. -/
def recCleanup (cfg : Config) (st : TaskSt) (p : FPath) : TaskSt :=
  recCleanupF cfg (p.length + 1) st p

/-- `_del_records`: walk every file under the directory, deleting its transfer
record; the `get_by_dest` here is not exception-guarded, so a raise aborts the
walk (second component `false`) and propagates to `_do_cleanup_dir`'s handler. -/
def delRecordsWalk (env : Env) : World → List FPath → World × Bool
  | w, [] => (w, true)
  | w, q :: rest =>
    match env.get_by_dest (pathStr q) with
    | Except.error _ => (w, false)
    | Except.ok none => delRecordsWalk env w rest
    | Except.ok (some r) => delRecordsWalk env (emit w (Ev.delRecord r.id)) rest

/-- `_del_torrents`: walk every file under the directory, emitting a
hash-deletion event when a hash resolves (lookups exception-guarded). -/
def delTorrentsWalk (env : Env) (w : World) (files : List FPath) : World :=
  files.foldl (fun w q =>
    match getTorrentHash env q (lookupDest env (pathStr q)) with
    | some t => emit w (Ev.delHash t)
    | none => w) w

/-- `_do_cleanup_dir`: directory-level cleanup for the deep-search movie/season
case. Exclusion is checked first; the directory is recorded as processed even
in dry-run; active mode optionally deletes nested records and torrent links,
then removes the whole subtree in one operation. -/
def doCleanupDir (cfg : Config) (env : Env) (st : TaskSt) (d : FPath) : TaskSt :=
  if isExcluded cfg d then st
  else
    let st0 := { st with processed := addSet st.processed (pathStr d) }
    if cfg.notify_only then st0
    else
      let files := filesUnder st0.world.fs d
      let wr := if cfg.remove_record then delRecordsWalk env st0.world files
                else (st0.world, true)
      if wr.2 = false then { st0 with world := wr.1 }
      else
        let w2 := if cfg.delete_torrent then delTorrentsWalk env wr.1 files else wr.1
        let w3 := emit { w2 with fs := w2.fs.rmtree d } (Ev.rmtree d)
        { st0 with
          world := w3
          stats := { st0.stats with
                       deleted := st0.stats.deleted + 1
                       deleted_files := st0.stats.deleted_files ++ [pathStr d] } }

/-! ## DeepSearchMatcher (`_do_deep_search`) -/

/-- Subdirectory test of the name-(year) rule: lowered name contains the
extracted name, raw name contains the year. -/
def nyPred (n y : String) (d : FPath) : Bool :=
  containsSub (strLower (pName d)) n && containsSub (pName d) y

/-- Subdirectory test of the Season-N rule. -/
def seasonPred (num : Nat) (d : FPath) : Bool :=
  seasonNum (pName d).data = some num

/-- Fuzzy redirection for one unmatched segment: the name-(year) rule first
(first matching subdirectory in enumeration order), then the Season-N rule
(the compared number is the first digit run anywhere in the segment, as in the
source). -/
def redirectSegment (subDirs : List FPath) (part : String) : Option FPath :=
  let r1 :=
    match nameYearFind part.data with
    | some (n, y) => subDirs.find? (nyPred (strLower (pyStrip ⟨n⟩)) ⟨y⟩)
    | none => none
  match r1 with
  | some d => some d
  | none =>
    if (seasonNum part.data).isSome then
      match firstDigits part.data with
      | some ds => subDirs.find? (seasonPred (digitsToNat ds))
      | none => none
    else none

/-- The segment-by-segment descent of `_do_deep_search`: exact child first,
else fuzzy redirection among the immediate subdirectories; `none` is the walk
failing (the source's early `return`). -/
def deepDescend (fs : FS) : FPath → List String → Option FPath
  | current, [] => some current
  | current, part :: rest =>
    let target := current ++ [part]
    if fs.existsP target then deepDescend fs target rest
    else
      let subDirs := ((fs.children current).filter (fun e => e.2 = EKind.dir)).map
        (fun e => e.1)
      match redirectSegment subDirs part with
      | some d => deepDescend fs d rest
      | none => none

/-- `_do_deep_search`: descend along the directory segments; at the final
directory, a `SxE` stem cleans matching media files individually followed by
an empty-ancestor check, while a movie/season stem cleans the resolved
directory wholesale (when it is not the local base itself). -/
def doDeepSearch (cfg : Config) (env : Env) (st : TaskSt) (strm : FPath)
    (local_base : FPath) (parts : List String) : TaskSt :=
  match deepDescend st.world.fs local_base parts.dropLast with
  | none => st
  | some current =>
    match seLast (pStem strm).data with
    | some (g2, g3) =>
      let se : String := "S" ++ (⟨zfill2 g2⟩ : String) ++ "E" ++ (⟨zfill2 g3⟩ : String)
      if st.world.fs.existsP current then
        let files := ((st.world.fs.children current).filter (fun e =>
          e.2 = EKind.file ∧ strLower (pSuffix e.1) ∈ MEDIA_EXTENSIONS ∧
          containsSub (strLower (pName e.1)) (strLower se) = true)).map (fun e => e.1)
        let st1 := files.foldl (fun s f =>
          if pathStr f ∉ s.processed ∧ isExcluded cfg f = false then
            performCleanup cfg env
              { s with stats := { s.stats with matched := s.stats.matched + 1 } } f
          else s) st
        recCleanup cfg st1 current
      else st
    | none =>
      if current ≠ local_base ∧ pathStr current ∉ st.processed then
        doCleanupDir cfg env
          { st with stats := { st.stats with matched := st.stats.matched + 1 } } current
      else st

/-! ## ExactMatcher (`_find_by_transfer_history`) -/

/-- Identity selection of `_find_by_transfer_history`: a passed-in id wins,
else the pattern extraction. -/
def tmdbIdOf (path_str : String) (tmdb_id_in : Option Nat) : Option Nat :=
  match tmdb_id_in with
  | some t => some t
  | none => extractTmdb path_str

/-- `_find_by_transfer_history`: returns (found, matched local files, message).
A query raise aborts with no candidates; returned records are filtered to
destinations literally prefixed by the local base and not excluded. -/
def findByTransferHistory (cfg : Config) (env : Env) (strm : FPath) (local_base : FPath)
    (tmdb_id_in : Option Nat) : Bool × List FPath × Option String :=
  let path_str := pyReplace (pathStr strm) bs2 "/"
  let tmdb_id := tmdbIdOf path_str tmdb_id_in
  let se := seFind (pStem strm).data
  match tmdb_id with
  | none => (false, [], none)
  | some tid =>
    let msg := "TMDB:" ++ Nat.repr tid
    let q := match se with
      | some (g1, g2) =>
        env.get_by tid (some ("S" ++ (⟨zfill2 g1⟩ : String)))
          (some ("E" ++ (⟨zfill2 g2⟩ : String)))
      | none => env.get_by tid none none
    match q with
    | Except.error _ => (false, [], some msg)
    | Except.ok records =>
      if records = [] then (false, [], some msg)
      else
        let local_base_str := pyReplace (pathStr local_base) bs2 "/"
        let matched := records.foldl (fun acc r =>
          if r.dest ≠ "" ∧ startsWith (pyReplace r.dest bs2 "/") local_base_str = true then
            if isExcluded cfg (toSegs r.dest) = false then acc ++ [toSegs r.dest] else acc
          else acc) ([] : List FPath)
        (matched ≠ [], matched, some msg)

/-! ## HistoryStore and the single-task pipeline -/

/-- `_save_history`: newest entry at the head, capped at 100. -/
def saveHistory (w : World) (title action target : String) (files : List String) : World :=
  { w with history :=
      ({ title := title, action := action, target := target, files := files } ::
        w.history).take 100 }

/-- `_handle_single_file`: one dequeued pointer-file task. (The media-info
recognition is an external read-only lookup feeding only display fields of the
history entry; it is omitted from the model.) -/
def handleSingleFile (cfg : Config) (env : Env) (w : World) (stats : Stats) (strm : FPath) :
    World × Stats :=
  let title := pStem strm
  let path_str := pyReplace (pathStr strm) bs2 "/"
  let stats := { stats with scanned := stats.scanned + 1 }
  let tmdb_id := extractTmdb path_str
  match checkExclusion cfg.keep_dirs cfg.exclude_keywords (pathStr strm) with
  | some _ => (w, stats)
  | none =>
    match findMapping cfg.path_mappings path_str with
    | none => (w, stats)
    | some (source_root, local_base) =>
      let rel_path := stripSlash ⟨path_str.data.drop source_root.data.length⟩
      let parts := (splitCh '/' rel_path.data).map String.mk
      let st0 : TaskSt := ⟨w, stats, []⟩
      let fr := findByTransferHistory cfg env strm local_base tmdb_id
      let found := fr.1
      let history_files := fr.2.1
      let h_msg := fr.2.2
      if found = true ∧ history_files ≠ [] then
        let st1 := { st0 with stats :=
          { st0.stats with matched := st0.stats.matched + history_files.length } }
        let st2 := history_files.foldl
          (fun s f => recCleanup cfg (performCleanup cfg env s f) f.dropLast) st1
        let action := if cfg.notify_only then "发现待清理" else "清理完成"
        let files_record :=
          if cfg.notify_only ∧ history_files ≠ [] then history_files.map pathStr
          else st2.processed
        let w2 := saveHistory st2.world (h_msg.getD title) action
          ("涉及 " ++ Nat.repr files_record.length ++ " 个文件") files_record
        (w2, st2.stats)
      else
        if cfg.deep_search then
          let st2 := doDeepSearch cfg env st0 strm local_base parts
          if st2.processed ≠ [] then
            let action := if cfg.notify_only then "发现待清理" else "清理完成"
            let w2 := saveHistory st2.world (h_msg.getD title) action
              ("涉及 " ++ Nat.repr st2.processed.length ++ " 个文件 (深度查找)")
              st2.processed
            (w2, st2.stats)
          else
            let w2 := saveHistory st2.world title "未找到本地资源" (pathStr local_base) []
            (w2, st2.stats)
        else
          let w2 := saveHistory st0.world title "未找到本地资源" "精确匹配失败" []
          (w2, st0.stats)

/-! ## BatchAggregator and the worker loop (`_send_batch_notification`,
`_process_queue_loop`) -/

/-- The `for f in stats["deleted_files"][:8]` loop of
`_send_batch_notification`: the concatenation of the appended text increments
(the loop's left-to-right `+=` associates freely with `++`). -/
def detailText : List String → String
  | [] => ""
  | f :: rest => "\n- " ++ baseName f ++ detailText rest

/-- The notification text built by `_send_batch_notification`: counts, the
failure count only when nonzero, up to 8 deleted-file basenames and an
ellipsis line when the deleted-file list is longer. -/
def sendBatchText (stats : Stats) : String :=
  let t0 := "扫描: " ++ Nat.repr stats.scanned ++ " | 匹配: " ++ Nat.repr stats.matched ++
            " | 清理: " ++ Nat.repr stats.deleted
  let t1 := if 0 < stats.failed then t0 ++ " | 失败: " ++ Nat.repr stats.failed else t0
  if stats.deleted_files ≠ [] then
    let t2 := t1 ++ "\n详情:" ++ detailText (stats.deleted_files.take 8)
    if 8 < stats.deleted_files.length then t2 ++ "\n..." else t2
  else t1

/-- `_send_batch_notification`: no message without the toggle or with nothing
scanned; otherwise the batched text. -/
def sendBatch (cfg : Config) (stats : Stats) : Option String :=
  if cfg.send_notify = false then none
  else if stats.scanned = 0 then none
  else some (sendBatchText stats)

/-- One dequeued item of the worker loop: a task with its dequeue time (the
monotone clock modelling `time.time()`), or a queue-timeout (idle window). -/
inductive QItem
  | task (now : Nat) (p : FPath)
  | timeout
deriving DecidableEq, Repr

/-- Worker-loop state: the world, the idle-window statistics, the `has_data`
flag and the debounce cache (`processed_cache`, insertion-ordered like a
Python dict). -/
structure LoopSt where
  world : World
  stats : Stats
  has_data : Bool
  cache : List (String × Nat)
deriving DecidableEq, Repr

/-- `processed_cache.get(key, 0)`. -/
def cacheGet (c : List (String × Nat)) (k : String) : Nat :=
  match c.find? (fun e => e.1 = k) with
  | some e => e.2
  | none => 0

/-- `processed_cache[key] = now` (dict update: in place when present, appended
otherwise). -/
def cacheSet (c : List (String × Nat)) (k : String) (v : Nat) : List (String × Nat) :=
  if c.any (fun e => e.1 = k) then c.map (fun e => if e.1 = k then (k, v) else e)
  else c ++ [(k, v)]

/-- One iteration of `_process_queue_loop`: a task is debounced (dropped inside
a 5-second window per path string), the cache is wholesale-cleared past 1000
entries, then the task is handled; a timeout flushes the batch notification
when data accumulated. Returns (state, task-was-processed, notification). -/
def loopStep (cfg : Config) (env : Env) (s : LoopSt) : QItem → LoopSt × Bool × Option String
  | QItem.task now p =>
    let key := pathStr p
    let last := cacheGet s.cache key
    if now - last < 5 then (s, false, none)
    else
      let c1 := cacheSet s.cache key now
      let c2 := if 1000 < c1.length then [] else c1
      let ws := handleSingleFile cfg env s.world s.stats p
      ({ world := ws.1, stats := ws.2, has_data := true, cache := c2 }, true, none)
  | QItem.timeout =>
    if s.has_data then
      ({ s with stats := Stats.init, has_data := false }, false, sendBatch cfg s.stats)
    else (s, false, none)

/-! ## Helper lemmas -/

theorem prefOf_append_self (a b : List Char) : prefOf a (a ++ b) = true := by
  induction a with
  | nil => rfl
  | cons c t ih => simp [prefOf, ih]

theorem subIn_here (pat r : List Char) : subIn pat (pat ++ r) = true := by
  cases pat with
  | nil =>
    cases r with
    | nil => rfl
    | cons c t => simp [subIn, prefOf]
  | cons c t =>
    simp only [subIn, Bool.or_eq_true]
    exact Or.inl (by simpa using prefOf_append_self (c :: t) r)

theorem subIn_cons (pat s : List Char) (c : Char) (h : subIn pat s = true) :
    subIn pat (c :: s) = true := by
  cases s with
  | nil =>
    simp [subIn] at h
    simp [subIn, h, prefOf]
  | cons d t =>
    simp only [subIn, Bool.or_eq_true] at h ⊢
    tauto

theorem subIn_append_left (pat l s : List Char) (h : subIn pat s = true) :
    subIn pat (l ++ s) = true := by
  induction l with
  | nil => exact h
  | cons c t ih => exact subIn_cons pat (t ++ s) c ih

theorem subIn_decomp (pat l r : List Char) : subIn pat (l ++ pat ++ r) = true := by
  rw [List.append_assoc]
  exact subIn_append_left pat l (pat ++ r) (subIn_here pat r)

theorem containsSub_decomp (a b c : String) : containsSub (a ++ b ++ c) b = true := by
  show subIn b.data ((a ++ b ++ c).data) = true
  have : (a ++ b ++ c).data = a.data ++ b.data ++ c.data := by
    simp [String.data_append]
  rw [this]
  exact subIn_decomp b.data a.data c.data

theorem addSet_self_mem (l : List String) (x : String) : x ∈ addSet l x := by
  unfold addSet
  split
  · assumption
  · simp

theorem foldl_world_inv {α : Type} (g : TaskSt → α → TaskSt)
    (hg : ∀ s a, (g s a).world = s.world) (l : List α) (st : TaskSt) :
    (l.foldl g st).world = st.world := by
  induction l generalizing st with
  | nil => rfl
  | cons a t ih => rw [List.foldl_cons, ih, hg]

theorem parseTokens_ne_empty (s : String) (d : String) (h : d ∈ parseTokens s) :
    d ≠ "" := by
  unfold parseTokens at h
  have := List.mem_filter.mp h
  simpa using this.2

/-! ## Claim theorems -/

/-- C2: a directory that contains at least one subdirectory, or at least one
file with a recognized media extension, is never removed by empty-ancestor
reclamation and the upward walk stops there, in both active and dry-run modes
(the call returns the state unchanged). -/
theorem C2_reclaim_never_removes_nonempty (cfg : Config) (st : TaskSt) (p : FPath)
    (h : hasMediaOrSubdir st.world.fs p = true) :
    recCleanup cfg st p = st := by
  rw [recCleanup, recCleanupF]
  simp [h]

/-- Witness for C2 at a concrete directory holding a media file. -/
theorem C2_reclaim_never_removes_nonempty_witness :
    hasMediaOrSubdir (FS.mk [(["m"], EKind.dir), (["m", "a.mkv"], EKind.file)]) ["m"]
      = true ∧
    recCleanup ⟨false, false, false, false, false, true, [], [], []⟩
      ⟨⟨⟨[(["m"], EKind.dir), (["m", "a.mkv"], EKind.file)]⟩, [], []⟩, Stats.init, []⟩
      ["m"] =
      ⟨⟨⟨[(["m"], EKind.dir), (["m", "a.mkv"], EKind.file)]⟩, [], []⟩, Stats.init, []⟩ := by
  refine ⟨by decide, C2_reclaim_never_removes_nonempty _ _ _ (by decide)⟩

/-- C10: per-file cleanup is idempotent over the task's processed set: a path
whose string form is already processed returns immediately with no state
change, and running `_perform_cleanup` twice on the same path equals running
it once. -/
theorem C10_perform_cleanup_idempotent (cfg : Config) (env : Env) :
    (∀ st p, pathStr p ∈ st.processed → performCleanup cfg env st p = st) ∧
    (∀ st p, performCleanup cfg env (performCleanup cfg env st p) p =
      performCleanup cfg env st p) := by
  have h1 : ∀ st p, pathStr p ∈ st.processed → performCleanup cfg env st p = st := by
    intro st p h
    simp [performCleanup, h]
  refine ⟨h1, fun st p => h1 _ p ?_⟩
  by_cases hm : pathStr p ∈ st.processed
  · rw [h1 st p hm]; exact hm
  · simp only [performCleanup, if_neg hm]
    exact addSet_self_mem _ _

/-- A minimal concrete configuration for witnesses. -/
def cfgW : Config := ⟨false, false, false, false, false, true, [], [], []⟩

/-- A minimal concrete environment for witnesses (all lookups succeed with
empty results). -/
def envW : Env :=
  ⟨fun _ _ _ => Except.ok [], fun _ => Except.ok none, fun _ => Except.ok none⟩

/-- Witness for C10 at a concrete already-processed path. -/
theorem C10_perform_cleanup_idempotent_witness :
    pathStr ["m", "a.mkv"] ∈ ["/m/a.mkv"] ∧
    performCleanup cfgW envW ⟨⟨⟨[]⟩, [], []⟩, Stats.init, ["/m/a.mkv"]⟩ ["m", "a.mkv"] =
      ⟨⟨⟨[]⟩, [], []⟩, Stats.init, ["/m/a.mkv"]⟩ :=
  ⟨by decide, (C10_perform_cleanup_idempotent cfgW envW).1 _ _ (by decide)⟩

/-- C7: any nonempty configured keepDirs token that occurs (case-sensitively)
as a substring of the path makes the classifier return a keepDirs token, even
when an excludeKeywords token also occurs; the excludeKeywords list is only
consulted when no keepDirs token matches. -/
theorem C7_keep_dirs_precedence (keepRaw exclRaw : String) (p : FPath) :
    ((∃ d ∈ parseTokens keepRaw, containsSub (pathStr p) d = true) →
      ∃ d ∈ parseTokens keepRaw,
        checkExclusion (parseTokens keepRaw) (parseTokens exclRaw) (pathStr p) = some d) ∧
    ((∀ d ∈ parseTokens keepRaw, containsSub (pathStr p) d = false) →
      checkExclusion (parseTokens keepRaw) (parseTokens exclRaw) (pathStr p) =
        (parseTokens exclRaw).find? (fun k => !(k = "") && containsSub (pathStr p) k)) := by
  constructor
  · rintro ⟨d, hd, hc⟩
    have hne : d ≠ "" := parseTokens_ne_empty _ _ hd
    have hsome :
        ((parseTokens keepRaw).find?
          (fun t => !(t = "") && containsSub (pathStr p) t)).isSome := by
      apply List.find?_isSome.mpr
      exact ⟨d, hd, by simp [hne, hc]⟩
    obtain ⟨d2, hd2⟩ := Option.isSome_iff_exists.mp hsome
    refine ⟨d2, List.mem_of_find?_eq_some hd2, ?_⟩
    simp [checkExclusion, hd2]
  · intro hall
    have hnone :
        (parseTokens keepRaw).find?
          (fun t => !(t = "") && containsSub (pathStr p) t) = none := by
      apply List.find?_eq_none.mpr
      intro x hx
      simp [hall x hx]
    simp [checkExclusion, hnone]

/-- Witness for C7: a keep token and an exclude token both match; the keep one
is returned. -/
theorem C7_keep_dirs_precedence_witness :
    (∃ d ∈ parseTokens "keepers", containsSub (pathStr ["m", "keepers", "a.iso"]) d = true) ∧
    (∃ d ∈ parseTokens "keepers",
      checkExclusion (parseTokens "keepers") (parseTokens "iso")
        (pathStr ["m", "keepers", "a.iso"]) = some d) :=
  ⟨by decide, (C7_keep_dirs_precedence "keepers" "iso" ["m", "keepers", "a.iso"]).1
    (by decide)⟩

/-- C8: the resolver selects the first configured well-formed mapping whose
source root is a literal prefix of the normalized pointer path, regardless of
later mappings that also match; when no mapping matches, the task is skipped
with no fallback root (only the scanned counter changes). -/
theorem C8_first_mapping_wins :
    (∀ (M : List String) (p : String) (i : Nat) (hi : i < M.length) (r : String × FPath),
      resolveOne (M.get ⟨i, hi⟩) p = some r →
      (∀ j (hj : j < i), resolveOne (M.get ⟨j, Nat.lt_trans hj hi⟩) p = none) →
      findMapping M p = some r) ∧
    (∀ (cfg : Config) (env : Env) (w : World) (stats : Stats) (strm : FPath),
      checkExclusion cfg.keep_dirs cfg.exclude_keywords (pathStr strm) = none →
      findMapping cfg.path_mappings (pyReplace (pathStr strm) bs2 "/") = none →
      handleSingleFile cfg env w stats strm =
        (w, { stats with scanned := stats.scanned + 1 })) := by
  constructor
  · intro M
    induction M with
    | nil =>
      intro p i hi
      exact absurd hi (by simp)
    | cons m rest ih =>
      intro p i hi r hr hmin
      cases i with
      | zero =>
        simp only [List.get] at hr
        simp [findMapping, hr]
      | succ n =>
        have h0 : resolveOne m p = none := hmin 0 (Nat.succ_pos n)
        simp only [findMapping, h0]
        exact ih p n (Nat.lt_of_succ_lt_succ hi) r (by simpa using hr)
          (fun j hj => by simpa using hmin (j + 1) (Nat.succ_lt_succ hj))
  · intro cfg env w stats strm hex hmap
    simp [handleSingleFile, hex, hmap]

/-- C6: in active mode, per-file cleanup of a candidate whose physical file no
longer exists still performs the metadata-sibling, download-hash and
transfer-record steps (each gated only by its own toggle, as the step
definitions state), marks the path processed, and changes no counter — in
particular the failure counter is not incremented for the missing file. -/
theorem C6_missing_file_still_cleans (cfg : Config) (env : Env) (st : TaskSt) (p : FPath)
    (hmode : cfg.notify_only = false)
    (hmiss : st.world.fs.existsP p = false)
    (hnew : pathStr p ∉ st.processed) :
    performCleanup cfg env st p =
      { st with
        world := recordStep cfg (lookupDest env (pathStr p))
          (torrentStep cfg env (lookupDest env (pathStr p)) (metaStep cfg st.world p) p)
        processed := st.processed ++ [pathStr p] } ∧
    (performCleanup cfg env st p).stats = st.stats ∧
    (performCleanup cfg env st p).stats.failed = st.stats.failed := by
  have heq : performCleanup cfg env st p =
      { st with
        world := recordStep cfg (lookupDest env (pathStr p))
          (torrentStep cfg env (lookupDest env (pathStr p)) (metaStep cfg st.world p) p)
        processed := st.processed ++ [pathStr p] } := by
    simp [performCleanup, hmode, hmiss, hnew, addSet]
  exact ⟨heq, by rw [heq], by rw [heq]⟩

/-- Concrete configuration for the C6 witness: active mode, all cascade
toggles on. -/
def cfg6 : Config := ⟨false, true, true, true, false, true, [], [], []⟩

/-- Concrete environment for the C6 witness: the destination lookup knows the
missing file and carries a download hash. -/
def env6 : Env :=
  ⟨fun _ _ _ => Except.ok [],
   fun d => if d = "/m/a.mkv" then Except.ok (some ⟨7, "/m/a.mkv", none, some "h7"⟩)
            else Except.ok none,
   fun _ => Except.ok none⟩

/-- Concrete task state for the C6 witness: the media file is missing but a
metadata sibling exists. -/
def st6 : TaskSt :=
  ⟨⟨⟨[(["m"], EKind.dir), (["m", "a.nfo"], EKind.file)]⟩, [], []⟩, Stats.init, []⟩

/-- Witness for C6: on the missing file, the metadata sibling is unlinked, the
hash event and the record deletion are emitted, and the statistics stay
untouched. -/
theorem C6_missing_file_still_cleans_witness :
    cfg6.notify_only = false ∧
    st6.world.fs.existsP ["m", "a.mkv"] = false ∧
    pathStr ["m", "a.mkv"] ∉ st6.processed ∧
    (performCleanup cfg6 env6 st6 ["m", "a.mkv"]).stats = st6.stats ∧
    (performCleanup cfg6 env6 st6 ["m", "a.mkv"]).world.events =
      [Ev.unlink ["m", "a.nfo"], Ev.delHash "h7", Ev.delRecord 7] :=
  ⟨rfl, by decide, by decide,
    (C6_missing_file_still_cleans cfg6 env6 st6 ["m", "a.mkv"] rfl (by decide)
      (by decide)).2.1,
    by decide⟩

/-- In dry-run mode, `_perform_cleanup` changes neither the world nor the
statistics (it only records the candidate as processed). -/
theorem performCleanup_world_dry (cfg : Config) (env : Env) (st : TaskSt) (p : FPath)
    (h : cfg.notify_only = true) :
    (performCleanup cfg env st p).world = st.world ∧
    (performCleanup cfg env st p).stats = st.stats := by
  by_cases hm : pathStr p ∈ st.processed <;> simp [performCleanup, hm, h]

/-- In dry-run mode, the reclamation walk is the identity. -/
theorem recCleanupF_dry (cfg : Config) (h : cfg.notify_only = true)
    (fuel : Nat) (st : TaskSt) (p : FPath) : recCleanupF cfg fuel st p = st := by
  cases fuel with
  | zero => rfl
  | succ n =>
    rw [recCleanupF]
    simp [h]

/-- In dry-run mode, `_recursive_check_and_cleanup` is the identity. -/
theorem recCleanup_dry (cfg : Config) (st : TaskSt) (p : FPath)
    (h : cfg.notify_only = true) : recCleanup cfg st p = st :=
  recCleanupF_dry cfg h _ st p

/-- In dry-run mode, `_do_cleanup_dir` changes neither the world nor the
statistics. -/
theorem doCleanupDir_dry (cfg : Config) (env : Env) (st : TaskSt) (d : FPath)
    (h : cfg.notify_only = true) :
    (doCleanupDir cfg env st d).world = st.world ∧
    (doCleanupDir cfg env st d).stats = st.stats := by
  by_cases he : isExcluded cfg d <;> simp [doCleanupDir, he, h]

/-- In dry-run mode, the deep search leaves the world untouched. -/
theorem doDeepSearch_world_dry (cfg : Config) (env : Env) (st : TaskSt) (strm : FPath)
    (base : FPath) (parts : List String) (h : cfg.notify_only = true) :
    (doDeepSearch cfg env st strm base parts).world = st.world := by
  unfold doDeepSearch
  split
  · rfl
  · split
    · split
      · rw [recCleanup_dry cfg _ _ h]
        apply foldl_world_inv
        intro s a
        split
        · exact (performCleanup_world_dry cfg env _ a h).1
        · rfl
      · rfl
    · split
      · exact (doCleanupDir_dry cfg env _ _ h).1
      · rfl

/-- C1: with dry-run (notify-only) active, processing a pointer-file task
issues no destructive operation whatsoever: the filesystem is unchanged and
the destructive-event trace (file unlinks, directory removals,
metadata-sibling deletions, transfer-record deletions, download-hash deletion
events) is unchanged; only logs, counters and history records are written. -/
theorem C1_dry_run_never_destructive (cfg : Config) (env : Env) (w : World)
    (stats : Stats) (strm : FPath) (h : cfg.notify_only = true) :
    (handleSingleFile cfg env w stats strm).1.fs = w.fs ∧
    (handleSingleFile cfg env w stats strm).1.events = w.events := by
  unfold handleSingleFile
  cases hex : checkExclusion cfg.keep_dirs cfg.exclude_keywords (pathStr strm) with
  | some t => simp [hex]
  | none =>
    simp only [hex]
    cases hmap : findMapping cfg.path_mappings (pyReplace (pathStr strm) bs2 "/") with
    | none => simp [hmap]
    | some sl =>
      obtain ⟨source_root, local_base⟩ := sl
      simp only [hmap]
      have hfold : ∀ (st : TaskSt) (files : List FPath),
          (files.foldl (fun s f => recCleanup cfg (performCleanup cfg env s f) f.dropLast)
            st).world = st.world := by
        intro st files
        apply foldl_world_inv
        intro s a
        rw [recCleanup_dry cfg _ _ h]
        exact (performCleanup_world_dry cfg env s a h).1
      split
      · simp only [saveHistory]
        constructor
        · show (_ : World).fs = w.fs
          rw [hfold]
        · show (_ : World).events = w.events
          rw [hfold]
      · split
        · split
          · simp only [saveHistory]
            constructor
            · show (_ : World).fs = w.fs
              rw [doDeepSearch_world_dry cfg env _ strm local_base _ h]
            · show (_ : World).events = w.events
              rw [doDeepSearch_world_dry cfg env _ strm local_base _ h]
          · simp only [saveHistory]
            constructor
            · show (_ : World).fs = w.fs
              rw [doDeepSearch_world_dry cfg env _ strm local_base _ h]
            · show (_ : World).events = w.events
              rw [doDeepSearch_world_dry cfg env _ strm local_base _ h]
        · simp [saveHistory]

/-- Witness for C1: the dry-run of a matched task leaves filesystem and event
trace unchanged. -/
theorem C1_dry_run_never_destructive_witness :
    (⟨true, true, true, true, true, true, [], [], ["/s:/m"]⟩ : Config).notify_only
      = true ∧
    (handleSingleFile ⟨true, true, true, true, true, true, [], [], ["/s:/m"]⟩
      ⟨fun _ _ _ => Except.ok [⟨1, "/m/a.mkv", none, some "h1"⟩],
       fun _ => Except.ok none, fun _ => Except.ok none⟩
      ⟨⟨[(["m"], EKind.dir), (["m", "a.mkv"], EKind.file)]⟩, [], []⟩ Stats.init
      ["s", "A \x7btmdb-1\x7d", "a.strm"]).1.fs =
      ⟨[(["m"], EKind.dir), (["m", "a.mkv"], EKind.file)]⟩ ∧
    (handleSingleFile ⟨true, true, true, true, true, true, [], [], ["/s:/m"]⟩
      ⟨fun _ _ _ => Except.ok [⟨1, "/m/a.mkv", none, some "h1"⟩],
       fun _ => Except.ok none, fun _ => Except.ok none⟩
      ⟨⟨[(["m"], EKind.dir), (["m", "a.mkv"], EKind.file)]⟩, [], []⟩ Stats.init
      ["s", "A \x7btmdb-1\x7d", "a.strm"]).1.events = [] :=
  ⟨rfl,
    (C1_dry_run_never_destructive _ _ _ _ _ rfl).1,
    (C1_dry_run_never_destructive _ _ _ _ _ rfl).2⟩

theorem find?_map_upd (c : List (String × Nat)) (k : String) (v : Nat)
    (h : c.any (fun e => e.1 = k) = true) :
    (c.map (fun e => if e.1 = k then (k, v) else e)).find? (fun e => e.1 = k)
      = some (k, v) := by
  induction c with
  | nil => simp at h
  | cons a t ih =>
    by_cases ha : a.1 = k
    · simp [ha, List.find?]
    · have ht : t.any (fun e => e.1 = k) = true := by
        simpa [ha] using h
      simp [ha, List.find?, ih ht]

theorem find?_append_absent (c : List (String × Nat)) (k : String) (v : Nat)
    (h : c.any (fun e => e.1 = k) = false) :
    (c ++ [(k, v)]).find? (fun e => e.1 = k) = some (k, v) := by
  induction c with
  | nil => simp [List.find?]
  | cons a t ih =>
    rw [List.any_cons, Bool.or_eq_false_iff] at h
    have ha : ¬ a.1 = k := by
      have := h.1
      simpa using this
    simp [List.find?, ha, ih h.2]

/-- Dict update followed by lookup of the same key yields the stored time. -/
theorem cacheGet_set (c : List (String × Nat)) (k : String) (v : Nat) :
    cacheGet (cacheSet c k v) k = v := by
  unfold cacheGet cacheSet
  by_cases h : c.any (fun e => e.1 = k) = true
  · simp only [h, if_true, find?_map_upd c k v h]
  · rw [Bool.not_eq_true] at h
    simp only [h, Bool.false_eq_true, if_false, find?_append_absent c k v h]

/-- C5 (amended): when the two dequeues of the same path string happen within
5 seconds and handling the first does not push the debounce cache past 1000
entries (so no wholesale clear intervenes), the first is processed and the
second is dropped — exactly one cleanup task runs for the path. -/
theorem C5_debounce_drops_second (cfg : Config) (env : Env) (s : LoopSt) (t1 t2 : Nat)
    (p : FPath)
    (hfirst : ¬ (t1 - cacheGet s.cache (pathStr p) < 5))
    (hsize : ¬ (1000 < (cacheSet s.cache (pathStr p) t1).length))
    (hmono : t1 ≤ t2) (hwin : t2 - t1 < 5) :
    (loopStep cfg env s (QItem.task t1 p)).2.1 = true ∧
    (loopStep cfg env (loopStep cfg env s (QItem.task t1 p)).1 (QItem.task t2 p)).2.1
      = false := by
  constructor
  · simp [loopStep, hfirst]
  · have h1 : (loopStep cfg env s (QItem.task t1 p)).1.cache
        = cacheSet s.cache (pathStr p) t1 := by
      simp [loopStep, hfirst, hsize]
    set s1 := (loopStep cfg env s (QItem.task t1 p)).1 with hs1
    have h2 : t2 - cacheGet s1.cache (pathStr p) < 5 := by
      rw [h1, cacheGet_set]
      exact hwin
    simp [loopStep, h2]

/-- Witness for C5 on an empty debounce cache: the first event at time 100 is
processed, the repeat at time 103 is dropped. -/
theorem C5_debounce_drops_second_witness :
    ¬ ((100 : Nat) - cacheGet [] (pathStr ["a"]) < 5) ∧
    ¬ (1000 < (cacheSet [] (pathStr ["a"]) 100).length) ∧
    (103 : Nat) - 100 < 5 ∧
    (loopStep cfgW envW ⟨⟨⟨[]⟩, [], []⟩, Stats.init, false, []⟩
      (QItem.task 100 ["a"])).2.1 = true ∧
    (loopStep cfgW envW
      (loopStep cfgW envW ⟨⟨⟨[]⟩, [], []⟩, Stats.init, false, []⟩
        (QItem.task 100 ["a"])).1
      (QItem.task 103 ["a"])).2.1 = false := by
  refine ⟨by decide, by decide, by decide, ?_, ?_⟩
  · exact (C5_debounce_drops_second cfgW envW ⟨⟨⟨[]⟩, [], []⟩, Stats.init, false, []⟩
      100 103 ["a"] (by decide) (by decide) (by decide) (by decide)).1
  · exact (C5_debounce_drops_second cfgW envW ⟨⟨⟨[]⟩, [], []⟩, Stats.init, false, []⟩
      100 103 ["a"] (by decide) (by decide) (by decide) (by decide)).2

/-- A full debounce cache: 1000 one-character keys, all distinct from any
path string (their code points exceed 1000). -/
def bigCache : List (String × Nat) :=
  (List.range 1000).map (fun i => (⟨[Char.ofNat (i + 1001)]⟩, 0))

set_option maxRecDepth 100000 in
set_option maxHeartbeats 2000000 in
/-- Counterexample to C5 as stated: with the cache at 1000 entries, the first
dequeue of the path is processed and pushes the cache to 1001 entries, which
clears it wholesale; the second dequeue of the same path one second later is
then processed as well — two cleanup tasks run for the path inside one
5-second window. -/
theorem C5_counterexample :
    (101 : Nat) - 100 < 5 ∧
    (loopStep cfgW envW ⟨⟨⟨[]⟩, [], []⟩, Stats.init, false, bigCache⟩
      (QItem.task 100 ["a"])).2.1 = true ∧
    (loopStep cfgW envW
      (loopStep cfgW envW ⟨⟨⟨[]⟩, [], []⟩, Stats.init, false, bigCache⟩
        (QItem.task 100 ["a"])).1
      (QItem.task 101 ["a"])).2.1 = true := by
  refine ⟨by decide, by decide, by decide⟩

theorem containsSub_of_data (t pat : String) (a b : List Char)
    (h : t.data = a ++ pat.data ++ b) : containsSub t pat = true := by
  show subIn pat.data t.data = true
  rw [h]
  exact subIn_decomp pat.data a b

theorem detailText_mem (l : List String) (f : String) (h : f ∈ l) :
    ∃ a b, (detailText l).data = a ++ ("\n- " ++ baseName f).data ++ b := by
  induction l with
  | nil => cases h
  | cons x t ih =>
    rcases List.mem_cons.mp h with h | h
    · subst h
      refine ⟨[], (detailText t).data, ?_⟩
      simp [detailText, String.data_append]
    · obtain ⟨a, b, hab⟩ := ih h
      refine ⟨("\n- " ++ baseName x).data ++ a, b, ?_⟩
      simp [detailText, String.data_append, hab, List.append_assoc]

theorem strEq_of_data (a b : String) (h : a.data = b.data) : a = b := by
  cases a
  cases b
  exact congrArg String.mk h

/-- The prefix of the batched text common to all branches. -/
def countsText (stats : Stats) : String :=
  "扫描: " ++ Nat.repr stats.scanned ++ " | 匹配: " ++ Nat.repr stats.matched ++
    " | 清理: " ++ Nat.repr stats.deleted

/-- The optional failure segment of the batched text. -/
def failText (stats : Stats) : String :=
  if 0 < stats.failed then " | 失败: " ++ Nat.repr stats.failed else ""

/-- The optional detail section of the batched text. -/
def tailText (stats : Stats) : String :=
  if stats.deleted_files ≠ [] then
    "\n详情:" ++ detailText (stats.deleted_files.take 8) ++
      (if 8 < stats.deleted_files.length then "\n..." else "")
  else ""

/-- The batched text decomposes into counts, optional failure segment and
optional detail section. -/
theorem sendBatchText_eq (stats : Stats) :
    sendBatchText stats = countsText stats ++ failText stats ++ tailText stats := by
  apply strEq_of_data
  by_cases h1 : stats.deleted_files ≠ [] <;> by_cases h2 : 0 < stats.failed <;>
    by_cases h3 : 8 < stats.deleted_files.length <;>
    simp [sendBatchText, countsText, failText, tailText, h1, h2, h3,
      String.data_append, List.append_assoc]

/-- C9 (amended): the batched notification is emitted at most once per idle
window (a second consecutive timeout emits nothing) and only when the
send-notify toggle is on, something was scanned and data accumulated; its text
contains the scanned, matched and deleted counts, the failed count when it is
nonzero, the basenames of at most the first 8 deleted files, and ends with an
ellipsis marker when more than 8 entries were recorded as deleted. -/
theorem C9_batch_notification (cfg : Config) (env : Env) :
    (∀ s : LoopSt, (loopStep cfg env s QItem.timeout).2.2 ≠ none →
      cfg.send_notify = true ∧ s.stats.scanned ≠ 0 ∧ s.has_data = true) ∧
    (∀ s : LoopSt,
      (loopStep cfg env (loopStep cfg env s QItem.timeout).1 QItem.timeout).2.2 = none) ∧
    (∀ stats : Stats,
      containsSub (sendBatchText stats) ("扫描: " ++ Nat.repr stats.scanned) = true ∧
      containsSub (sendBatchText stats) ("匹配: " ++ Nat.repr stats.matched) = true ∧
      containsSub (sendBatchText stats) ("清理: " ++ Nat.repr stats.deleted) = true ∧
      (0 < stats.failed →
        containsSub (sendBatchText stats) ("失败: " ++ Nat.repr stats.failed) = true) ∧
      (∀ f ∈ stats.deleted_files.take 8,
        containsSub (sendBatchText stats) ("\n- " ++ baseName f) = true) ∧
      (8 < stats.deleted_files.length →
        ∃ pre, (sendBatchText stats).data = pre ++ ("\n...").data)) := by
  refine ⟨?_, ?_, ?_⟩
  · intro s hne
    by_cases hd : s.has_data
    · refine ⟨?_, ?_, hd⟩
      · simp only [loopStep, hd, if_true] at hne
        unfold sendBatch at hne
        by_cases hn : cfg.send_notify = false
        · simp [hn] at hne
        · simpa using hn
      · simp only [loopStep, hd, if_true] at hne
        unfold sendBatch at hne
        intro h0
        simp [h0] at hne
    · simp [loopStep, hd] at hne
  · intro s
    by_cases hd : s.has_data <;> simp [loopStep, hd]
  · intro stats
    refine ⟨?_, ?_, ?_, ?_, ?_, ?_⟩
    · apply containsSub_of_data _ _ []
        ((" | 匹配: " ++ Nat.repr stats.matched ++ " | 清理: " ++
          Nat.repr stats.deleted ++ failText stats ++ tailText stats).data)
      rw [sendBatchText_eq]
      simp [countsText, String.data_append, List.append_assoc]
    · apply containsSub_of_data _ _
        (("扫描: " ++ Nat.repr stats.scanned ++ " | ").data)
        ((" | 清理: " ++ Nat.repr stats.deleted ++ failText stats ++
          tailText stats).data)
      rw [sendBatchText_eq]
      have hsplit : (" | 匹配: " : String) = " | " ++ "匹配: " := rfl
      rw [show countsText stats = "扫描: " ++ Nat.repr stats.scanned ++
        (" | " ++ "匹配: ") ++ Nat.repr stats.matched ++ " | 清理: " ++
        Nat.repr stats.deleted from by rw [← hsplit]; rfl]
      simp [String.data_append, List.append_assoc]
    · apply containsSub_of_data _ _
        (("扫描: " ++ Nat.repr stats.scanned ++ " | 匹配: " ++
          Nat.repr stats.matched ++ " | ").data)
        ((failText stats ++ tailText stats).data)
      rw [sendBatchText_eq]
      have hsplit : (" | 清理: " : String) = " | " ++ "清理: " := rfl
      rw [show countsText stats = "扫描: " ++ Nat.repr stats.scanned ++
        " | 匹配: " ++ Nat.repr stats.matched ++ (" | " ++ "清理: ") ++
        Nat.repr stats.deleted from by rw [← hsplit]; rfl]
      simp [String.data_append, List.append_assoc]
    · intro hf
      apply containsSub_of_data _ _ ((countsText stats ++ " | ").data)
        ((tailText stats).data)
      rw [sendBatchText_eq]
      have hft : failText stats = " | " ++ ("失败: " ++ Nat.repr stats.failed) := by
        unfold failText
        rw [if_pos hf]
        rfl
      rw [hft]
      simp [String.data_append, List.append_assoc]
    · intro f hfm
      have hne : stats.deleted_files ≠ [] := by
        intro h0
        rw [h0] at hfm
        cases hfm
      obtain ⟨a, b, hab⟩ := detailText_mem _ f hfm
      apply containsSub_of_data _ _
        ((countsText stats ++ failText stats ++ "\n详情:").data ++ a)
        (b ++ (if 8 < stats.deleted_files.length then ("\n..." : String) else "").data)
      rw [sendBatchText_eq]
      have htt : tailText stats = "\n详情:" ++ detailText (stats.deleted_files.take 8) ++
          (if 8 < stats.deleted_files.length then "\n..." else "") := by
        unfold tailText
        rw [if_pos hne]
      rw [htt]
      simp [String.data_append, List.append_assoc, hab]
    · intro hlen
      have hne : stats.deleted_files ≠ [] := by
        intro h0
        rw [h0] at hlen
        simp at hlen
      refine ⟨(countsText stats ++ failText stats ++ ("\n详情:" ++
        detailText (stats.deleted_files.take 8))).data, ?_⟩
      rw [sendBatchText_eq]
      have htt : tailText stats = "\n详情:" ++ detailText (stats.deleted_files.take 8) ++
          "\n..." := by
        unfold tailText
        rw [if_pos hne, if_pos hlen]
      rw [htt]
      simp [String.data_append, List.append_assoc]

/-- Witness for C9 at concrete statistics with a nonzero failure count. -/
theorem C9_batch_notification_witness :
    (0 : Nat) < (⟨2, 1, 1, 3, ["/m/x.mkv"]⟩ : Stats).failed ∧
    containsSub (sendBatchText ⟨2, 1, 1, 3, ["/m/x.mkv"]⟩)
      ("扫描: " ++ Nat.repr 2) = true ∧
    containsSub (sendBatchText ⟨2, 1, 1, 3, ["/m/x.mkv"]⟩)
      ("失败: " ++ Nat.repr 3) = true :=
  ⟨by decide,
    ((C9_batch_notification cfgW envW).2.2 ⟨2, 1, 1, 3, ["/m/x.mkv"]⟩).1,
    ((C9_batch_notification cfgW envW).2.2 ⟨2, 1, 1, 3, ["/m/x.mkv"]⟩).2.2.2.1
      (by decide)⟩

/-- Counterexample to C9 as stated: with zero failures the text does not
contain the failed count — the notification is emitted, yet neither the digit
`0` nor a failure segment occurs anywhere in it. -/
theorem C9_counterexample :
    (sendBatch ⟨false, false, false, false, false, true, [], [], []⟩
      ⟨1, 1, 1, 0, ["/m/a.mkv"]⟩).isSome = true ∧
    containsSub (sendBatchText ⟨1, 1, 1, 0, ["/m/a.mkv"]⟩) "0" = false ∧
    containsSub (sendBatchText ⟨1, 1, 1, 0, ["/m/a.mkv"]⟩)
      ("失败: " ++ Nat.repr 0) = false := by
  refine ⟨by decide, by decide, by decide⟩

/-- With an always-raising identity query, exact matching reports no match. -/
theorem fbth_found_false (cfg : Config) (env : Env) (strm : FPath) (base : FPath)
    (idin : Option Nat) (henv : ∀ a b c, env.get_by a b c = Except.error ()) :
    (findByTransferHistory cfg env strm base idin).1 = false := by
  unfold findByTransferHistory
  cases hid : tmdbIdOf (pyReplace (pathStr strm) bs2 "/") idin with
  | none => simp [hid]
  | some i =>
    cases hse : seFind (pStem strm).data with
    | none => simp [hid, hse, henv]
    | some g =>
      obtain ⟨g1, g2⟩ := g
      simp [hid, hse, henv]

/-- C3 (amended): a raised transfer-index query during exact matching aborts
the exact-match reconciliation for the task with no candidates (the reported
message still carries the extracted identity), it is not retried, and the
worker keeps processing further tasks; when deep search is disabled the task
then performs no cleanup at all. (Contrary to the claim as stated, with deep
search enabled the task does proceed to the deep-search fallback — see the
counterexample.) -/
theorem C3_query_failure_aborts_exact_match :
    (∀ (cfg : Config) (env : Env) (strm base : FPath) (idin : Option Nat) (i : Nat),
      tmdbIdOf (pyReplace (pathStr strm) bs2 "/") idin = some i →
      (∀ a b c, env.get_by a b c = Except.error ()) →
      findByTransferHistory cfg env strm base idin =
        (false, [], some ("TMDB:" ++ Nat.repr i))) ∧
    (∀ (cfg : Config) (env : Env) (w : World) (stats : Stats) (strm : FPath),
      (∀ a b c, env.get_by a b c = Except.error ()) →
      cfg.deep_search = false →
      (handleSingleFile cfg env w stats strm).1.fs = w.fs ∧
      (handleSingleFile cfg env w stats strm).1.events = w.events) ∧
    (∀ (cfg : Config) (env : Env) (s : LoopSt) (now : Nat) (p : FPath),
      ¬ (now - cacheGet s.cache (pathStr p) < 5) →
      (loopStep cfg env s (QItem.task now p)).2.1 = true) := by
  refine ⟨?_, ?_, ?_⟩
  · intro cfg env strm base idin i hid henv
    unfold findByTransferHistory
    cases hse : seFind (pStem strm).data with
    | none => simp [hid, hse, henv]
    | some g =>
      obtain ⟨g1, g2⟩ := g
      simp [hid, hse, henv]
  · intro cfg env w stats strm henv hds
    have hf := fbth_found_false cfg env strm
    unfold handleSingleFile
    cases hex : checkExclusion cfg.keep_dirs cfg.exclude_keywords (pathStr strm) with
    | some t => simp [hex]
    | none =>
      simp only [hex]
      cases hmap : findMapping cfg.path_mappings (pyReplace (pathStr strm) bs2 "/") with
      | none => simp [hmap]
      | some sl =>
        obtain ⟨source_root, local_base⟩ := sl
        simp only [hmap]
        rw [hf local_base _ henv]
        simp [hds, saveHistory]
  · intro cfg env s now p h
    simp [loopStep, h]

/-- Configuration for the C3 witness and counterexample: deep search enabled,
active mode. -/
def cfg3 : Config := ⟨false, false, false, false, true, true, [], [], ["/strm:/m"]⟩

/-- Environment whose identity query always raises. -/
def env3 : Env :=
  ⟨fun _ _ _ => Except.error (), fun _ => Except.ok none, fun _ => Except.ok none⟩

/-- Witness for C3: on a pointer path with an extractable identity and a
raising query, exact matching returns no candidates with the identity
message. -/
theorem C3_query_failure_aborts_exact_match_witness :
    tmdbIdOf (pyReplace (pathStr ["strm", "Foo \x7btmdb-9\x7d", "Foo.strm"]) bs2 "/")
      none = some 9 ∧
    findByTransferHistory cfg3 env3 ["strm", "Foo \x7btmdb-9\x7d", "Foo.strm"] ["m"]
      none = (false, [], some ("TMDB:" ++ Nat.repr 9)) :=
  ⟨by decide,
    C3_query_failure_aborts_exact_match.1 cfg3 env3
      ["strm", "Foo \x7btmdb-9\x7d", "Foo.strm"] ["m"] none 9 (by decide)
      (fun _ _ _ => rfl)⟩

/-- Counterexample to C3 as stated: the identity query raises, yet — deep
search being enabled — the task proceeds to the deep-search fallback and
performs cleanup (a directory tree is removed). -/
theorem C3_counterexample :
    env3.get_by 123 none none = Except.error () ∧
    (handleSingleFile cfg3 env3
      ⟨⟨[(["m"], EKind.dir), (["m", "Foo (2020) \x7btmdb-123\x7d"], EKind.dir)]⟩, [], []⟩
      Stats.init ["strm", "Foo (2020) \x7btmdb-123\x7d", "Foo.strm"]).1.events =
      [Ev.rmtree ["m", "Foo (2020) \x7btmdb-123\x7d"]] := by
  refine ⟨rfl, by decide⟩

theorem find?_first {α : Type} (p : α → Bool) (l : List α) (hx : ∃ x ∈ l, p x = true) :
    ∃ i : Fin l.length, l.find? p = some (l.get i) ∧ p (l.get i) = true ∧
      ∀ j : Fin l.length, j.val < i.val → p (l.get j) = false := by
  induction l with
  | nil =>
    obtain ⟨x, hxm, _⟩ := hx
    cases hxm
  | cons a t ih =>
    by_cases ha : p a = true
    · refine ⟨⟨0, by simp⟩, ?_, ha, ?_⟩
      · simp [List.find?, ha]
      · intro j hj
        simp at hj
    · have ha' : p a = false := by
        rwa [Bool.not_eq_true] at ha
      have hx' : ∃ x ∈ t, p x = true := by
        obtain ⟨x, hxm, hp⟩ := hx
        rcases List.mem_cons.mp hxm with rfl | hm
        · exact absurd hp ha
        · exact ⟨x, hm, hp⟩
      obtain ⟨i, h1, h2, h3⟩ := ih hx'
      refine ⟨⟨i.val + 1, by simpa using i.isLt⟩, ?_, h2, ?_⟩
      · simp [List.find?, ha', h1]
      · intro j hj
        match j, hj with
        | ⟨0, _⟩, _ => exact ha'
        | ⟨m + 1, hm⟩, hj =>
          exact h3 ⟨m, by simpa using hm⟩ (by simpa using hj)

/-- C4 (amended): during the deep-search descent, a segment with no exact
child match fails the walk — and therefore the deep search performs no cleanup
of any kind — exactly when no immediate subdirectory satisfies the applicable
name-(year) rule and none satisfies the applicable Season-N rule. When one or
more subdirectories satisfy a rule, the walk does not fail there: the first
satisfying subdirectory in enumeration order is selected, for the name-(year)
rule (tried first) as well as for the Season-N rule (tried when the name-(year)
rule produced no directory) — contrary to the claim as stated, which requires
a unique match (see the counterexample). -/
theorem C4_deep_search_segment_matching :
    (∀ (cfg : Config) (env : Env) (st : TaskSt) (strm base : FPath)
      (parts : List String),
      deepDescend st.world.fs base parts.dropLast = none →
      doDeepSearch cfg env st strm base parts = st) ∧
    (∀ (subDirs : List FPath) (part : String),
      (∀ n y, nameYearFind part.data = some (n, y) →
        ∀ d ∈ subDirs, nyPred (strLower (pyStrip ⟨n⟩)) (⟨y⟩ : String) d = false) →
      (∀ ds, firstDigits part.data = some ds →
        ∀ d ∈ subDirs, seasonPred (digitsToNat ds) d = false) →
      redirectSegment subDirs part = none) ∧
    (∀ (subDirs : List FPath) (part : String) (n y : List Char),
      nameYearFind part.data = some (n, y) →
      (∃ d ∈ subDirs, nyPred (strLower (pyStrip ⟨n⟩)) (⟨y⟩ : String) d = true) →
      ∃ i : Fin subDirs.length,
        redirectSegment subDirs part = some (subDirs.get i) ∧
        nyPred (strLower (pyStrip ⟨n⟩)) (⟨y⟩ : String) (subDirs.get i) = true ∧
        ∀ j : Fin subDirs.length, j.val < i.val →
          nyPred (strLower (pyStrip ⟨n⟩)) (⟨y⟩ : String) (subDirs.get j) = false) ∧
    (∀ (subDirs : List FPath) (part : String) (ds : List Char),
      (∀ n y, nameYearFind part.data = some (n, y) →
        ∀ d ∈ subDirs, nyPred (strLower (pyStrip ⟨n⟩)) (⟨y⟩ : String) d = false) →
      (seasonNum part.data).isSome = true →
      firstDigits part.data = some ds →
      (∃ d ∈ subDirs, seasonPred (digitsToNat ds) d = true) →
      ∃ i : Fin subDirs.length,
        redirectSegment subDirs part = some (subDirs.get i) ∧
        seasonPred (digitsToNat ds) (subDirs.get i) = true ∧
        ∀ j : Fin subDirs.length, j.val < i.val →
          seasonPred (digitsToNat ds) (subDirs.get j) = false) := by
  refine ⟨?_, ?_, ?_, ?_⟩
  · intro cfg env st strm base parts h
    unfold doDeepSearch
    rw [h]
  · intro subDirs part h1 h2
    unfold redirectSegment
    cases hny : nameYearFind part.data with
    | some g =>
      obtain ⟨n, y⟩ := g
      have hf1 : subDirs.find? (nyPred (strLower (pyStrip ⟨n⟩)) (⟨y⟩ : String)) = none := by
        apply List.find?_eq_none.mpr
        intro d hd
        simp [h1 n y hny d hd]
      simp only [hny, hf1]
      split
      · cases hfd : firstDigits part.data with
        | none => simp
        | some ds =>
          have hf2 : subDirs.find? (seasonPred (digitsToNat ds)) = none := by
            apply List.find?_eq_none.mpr
            intro d hd
            simp [h2 ds hfd d hd]
          simp [hf2]
      · rfl
    | none =>
      simp only [hny]
      split
      · cases hfd : firstDigits part.data with
        | none => simp
        | some ds =>
          have hf2 : subDirs.find? (seasonPred (digitsToNat ds)) = none := by
            apply List.find?_eq_none.mpr
            intro d hd
            simp [h2 ds hfd d hd]
          simp [hf2]
      · rfl
  · intro subDirs part n y hny hex
    obtain ⟨i, h1, h2, h3⟩ :=
      find?_first (nyPred (strLower (pyStrip ⟨n⟩)) (⟨y⟩ : String)) subDirs hex
    refine ⟨i, ?_, h2, h3⟩
    unfold redirectSegment
    simp only [hny, h1]
  · intro subDirs part ds h1 hs hfd hex
    obtain ⟨i, hf1, h2, h3⟩ := find?_first (seasonPred (digitsToNat ds)) subDirs hex
    refine ⟨i, ?_, h2, h3⟩
    unfold redirectSegment
    cases hny : nameYearFind part.data with
    | some g =>
      obtain ⟨n, y⟩ := g
      have hnone :
          subDirs.find? (nyPred (strLower (pyStrip ⟨n⟩)) (⟨y⟩ : String)) = none := by
        apply List.find?_eq_none.mpr
        intro d hd
        simp [h1 n y hny d hd]
      simp only [hny, hnone, hs, if_true, hfd, hf1]
    | none =>
      simp only [hny, hs, if_true, hfd, hf1]

/-- Concrete immediate subdirectories for the Season-N part of the C4
witness. -/
def seasonDirs : List FPath := [["m", "Specials"], ["m", "Season 1"], ["m", "Season 2"]]

/-- Concrete filesystem for the walk-continuation part of the C4 witness. -/
def fsS : FS :=
  ⟨[(["m"], EKind.dir), (["m", "Show"], EKind.dir),
    (["m", "Show", "Season 2"], EKind.dir),
    (["m", "Show", "Season 2", "E1.mkv"], EKind.file)]⟩

/-- Witness for C4: a segment matching no subdirectory under either rule makes
the walk fail and the deep search return the state unchanged; a Season-N
segment with a satisfying subdirectory selects the first such subdirectory in
enumeration order, and the descent continues through it. -/
theorem C4_deep_search_segment_matching_witness :
    (deepDescend (FS.mk [(["m"], EKind.dir)]) ["m"]
      (["NoSuchShow", "x.strm"] : List String).dropLast = none ∧
    doDeepSearch cfg3 env3 ⟨⟨⟨[(["m"], EKind.dir)]⟩, [], []⟩, Stats.init, []⟩
      ["strm", "NoSuchShow", "x.strm"] ["m"] ["NoSuchShow", "x.strm"] =
      ⟨⟨⟨[(["m"], EKind.dir)]⟩, [], []⟩, Stats.init, []⟩) ∧
    ((seasonNum "Season 02".data).isSome = true ∧
    firstDigits "Season 02".data = some ['0', '2'] ∧
    (∃ d ∈ seasonDirs, seasonPred (digitsToNat ['0', '2']) d = true) ∧
    (∃ i : Fin seasonDirs.length,
      redirectSegment seasonDirs "Season 02" = some (seasonDirs.get i) ∧
      seasonPred (digitsToNat ['0', '2']) (seasonDirs.get i) = true ∧
      ∀ j : Fin seasonDirs.length, j.val < i.val →
        seasonPred (digitsToNat ['0', '2']) (seasonDirs.get j) = false)) ∧
    deepDescend fsS ["m"] ["Show", "Season 02"] = some ["m", "Show", "Season 2"] :=
  ⟨⟨by decide,
    C4_deep_search_segment_matching.1 cfg3 env3
      ⟨⟨⟨[(["m"], EKind.dir)]⟩, [], []⟩, Stats.init, []⟩
      ["strm", "NoSuchShow", "x.strm"] ["m"] ["NoSuchShow", "x.strm"] (by decide)⟩,
   ⟨by decide, by decide, by decide,
    C4_deep_search_segment_matching.2.2.2 seasonDirs "Season 02" ['0', '2']
      (by
        intro n y hny
        rw [show nameYearFind "Season 02".data = none from by decide] at hny
        cases hny)
      (by decide) (by decide) (by decide)⟩,
   by decide⟩

/-- Counterexample to C4 as stated: two subdirectories both satisfy the
name-(year) rule (no unique match), yet the walk does not fail — the first
match is taken and the deep search removes a directory tree. -/
theorem C4_counterexample :
    nameYearFind "Foo (2020)".data = some ("Foo ".data, "2020".data) ∧
    nyPred "foo" "2020" ["m", "Foo (2020) A"] = true ∧
    nyPred "foo" "2020" ["m", "Foo (2020) B"] = true ∧
    (doDeepSearch cfg3 envW
      ⟨⟨⟨[(["m"], EKind.dir), (["m", "Foo (2020) A"], EKind.dir),
          (["m", "Foo (2020) B"], EKind.dir)]⟩, [], []⟩, Stats.init, []⟩
      ["strm", "Foo (2020)", "Foo.strm"] ["m"]
      ["Foo (2020)", "Foo.strm"]).world.events =
      [Ev.rmtree ["m", "Foo (2020) A"]] := by
  refine ⟨by decide, by decide, by decide, by decide⟩

/-- Witness for C8: two mappings match; the first wins. -/
theorem C8_first_mapping_wins_witness :
    resolveOne (["/a:/x", "/a/b:/y"].get ⟨0, by decide⟩) "/a/b/c.strm" =
      some ("/a", ["x"]) ∧
    findMapping ["/a:/x", "/a/b:/y"] "/a/b/c.strm" = some ("/a", ["x"]) :=
  ⟨by decide, (C8_first_mapping_wins).1 ["/a:/x", "/a/b:/y"] "/a/b/c.strm" 0 (by decide)
    ("/a", ["x"]) (by decide) (fun j hj => absurd hj (by omega))⟩


end StrmDeLocal
